import Mathlib

set_option maxHeartbeats 1000000

/-! Shallow embedding of the elm-solve-deps-wasm wrapper (src/lib.rs and
src/utils.rs). External collaborators are modelled at their interface
boundary, as the specification frames them: serde decoding of manifest text
is a function parameter, the JS host callbacks are response functions, and
the solver of the external elm-solve-deps crate is modelled from the spec.
The wrapper entry point is instrumented with an event trace recording every
logger write and every provider call, so that logging and call-count
properties can be stated. -/

/-- Semantic version triple. Modelled from the spec: a version is a
(major, minor, patch) triple (spec section 3); the concrete type lives in the
external pubgrub crate. -/
structure SemVer where
  major : Nat
  minor : Nat
  patch : Nat
deriving DecidableEq

/-- Rendering of a version as `major.minor.patch` (spec section 6). -/
def SemVer.toStr (v : SemVer) : String :=
  Nat.repr v.major ++ "." ++ Nat.repr v.minor ++ "." ++ Nat.repr v.patch

/-- Package identifier. Modelled from the spec: an `author/name` style
identifier (spec section 3); the concrete type lives in the external
elm-solve-deps crate. -/
structure Pkg where
  author : String
  pkgName : String
deriving DecidableEq

/-- Rendering of a package identifier as `author/name` (spec section 6). -/
def Pkg.toStr (p : Pkg) : String := p.author ++ "/" ++ p.pkgName

/-- Strict lexicographic order on version triples (spec section 3). -/
def SemVer.lexLe (a b : SemVer) : Bool :=
  decide (a.major < b.major ∨ (a.major = b.major ∧
    (a.minor < b.minor ∨ (a.minor = b.minor ∧ a.patch ≤ b.patch))))

/-- Strict version of the lexicographic order on version triples. -/
def SemVer.lexLt (a b : SemVer) : Bool :=
  decide (a.major < b.major ∨ (a.major = b.major ∧
    (a.minor < b.minor ∨ (a.minor = b.minor ∧ a.patch < b.patch))))

/-- Version-range constraint. Modelled from the spec: a half-open range
`low <= v < high` (spec section 6); the concrete type lives in the external
elm-solve-deps crate. -/
structure Constraint where
  low : SemVer
  high : SemVer
deriving DecidableEq

/-- Membership of a version in a half-open range (spec section 3). -/
def Constraint.allows (c : Constraint) (v : SemVer) : Bool :=
  SemVer.lexLe c.low v && SemVer.lexLt v c.high

/-- Project manifest, already decoded: the normal and the test dependency
sets (spec section 6). -/
structure ProjectConfig where
  dependencies : List (Pkg × Constraint)
  testDependencies : List (Pkg × Constraint)

/-- Splitting a character list on a separator character. -/
def splitOnChar (sep : Char) : List Char → List (List Char)
  | [] => [[]]
  | c :: t =>
    if c = sep then [] :: splitOnChar sep t
    else
      match splitOnChar sep t with
      | [] => [[c]]
      | h :: r => (c :: h) :: r

/-- Accumulating decimal value of a digit list; fails on a non-digit. -/
def digitsValAux : List Char → Nat → Option Nat
  | [], acc => some acc
  | c :: t, acc =>
    if c.isDigit then digitsValAux t (10 * acc + (c.toNat - 48)) else none

/-- Decimal value of a non-empty digit list; fails on a non-digit or on an
empty list. -/
def digitsVal : List Char → Option Nat
  | [] => none
  | c :: t => digitsValAux (c :: t) 0

/-- Modelled from the spec: `SemanticVersion::from_str` of the external
pubgrub crate, parsing `major.minor.patch` and rejecting anything else
(spec sections 4.1 and 6). -/
def parseSemVer (s : String) : Option SemVer :=
  match splitOnChar '.' s.data with
  | [a, b, c] =>
    match digitsVal a, digitsVal b, digitsVal c with
    | some x, some y, some z => some ⟨x, y, z⟩
    | _, _, _ => none
  | _ => none

/-- Modelled from the spec: `Pkg::from_str` of the external elm-solve-deps
crate; package identifier syntax is `namespace/name`, validated at
construction, with the offending text kept in the error
(spec sections 3, 6 and 7). -/
def parsePkg (s : String) : Except String Pkg :=
  match splitOnChar '/' s.data with
  | [a, n] =>
    if a.isEmpty || n.isEmpty then
      Except.error ("Invalid package identifier: " ++ s)
    else Except.ok ⟨String.mk a, String.mk n⟩
  | _ => Except.error ("Invalid package identifier: " ++ s)

/-- Modelled from the spec: `Constraint::from_str` of the external
elm-solve-deps crate; constraint syntax is the half-open range
`a.b.c <= v < x.y.z`, with the offending text kept in the error
(spec sections 6 and 7). -/
def parseConstraint (s : String) : Except String Constraint :=
  match splitOnChar ' ' s.data with
  | [lo, le, vv, lt, hi] =>
    if String.mk le == "<=" && String.mk vv == "v" && String.mk lt == "<" then
      match parseSemVer (String.mk lo), parseSemVer (String.mk hi) with
      | some l, some h => Except.ok ⟨l, h⟩
      | _, _ => Except.error ("Invalid constraint: " ++ s)
    else Except.error ("Invalid constraint: " ++ s)
  | _ => Except.error ("Invalid constraint: " ++ s)

/-- The decoding functions supplied by external serde code; the spec places
manifest text decoding outside the core (spec section 1), so `solve_deps` is
stated uniformly in them. -/
structure ExtDecoders where
  decodeProject : String → Except String ProjectConfig
  decodePkgConfig : String → Except String (List (Pkg × Constraint))

/-- The two JS provider callbacks, modelled by their response functions: a
call either returns a value or throws, and a thrown value is observed through
its JSON stringification (src/lib.rs lines 94-130). -/
structure JsCallbacks where
  fetchElmJson : String → String → Except String String
  listAvailableVersions : String → Except String (List String)

/-- Outcome of deserializing the additional-constraints JS value into a map
from package string to constraint string (src/lib.rs lines 82-83). -/
inductive JsMapping where
  | ok (entries : List (String × String))
  | bad (err : String)

/-- Observable events of one `solve_deps` run: a message handed to the
process logger, or an invocation of one of the two JS provider callbacks. -/
inductive Event where
  | loggedError (msg : String)
  | calledList (pkg : Pkg)
  | calledFetch (pkg : Pkg) (version : SemVer)
deriving DecidableEq

/-- Whether an event is a provider-callback invocation. -/
def Event.isCall : Event → Bool
  | .loggedError _ => false
  | .calledList _ => true
  | .calledFetch _ _ => true

/-- Number of manifest-fetch invocations for a given package and version in a
trace. -/
def countFetch (p : Pkg) (v : SemVer) : List Event → Nat
  | [] => 0
  | Event.loggedError _ :: t => countFetch p v t
  | Event.calledList _ :: t => countFetch p v t
  | Event.calledFetch q w :: t =>
    (if p = q ∧ v = w then 1 else 0) + countFetch p v t

/-- Number of version-listing invocations for a given package in a trace. -/
def countList (p : Pkg) : List Event → Nat
  | [] => 0
  | Event.loggedError _ :: t => countList p t
  | Event.calledList q :: t => (if p = q then 1 else 0) + countList p t
  | Event.calledFetch _ _ :: t => countList p t

/-- Severity filter of the log crate. -/
inductive LevelFilter where
  | off
  | error
  | warn
  | info
  | debug
  | trace
deriving DecidableEq

/-- Error returned by `log::set_logger` when a logger is already installed. -/
inductive SetLoggerError where
  | alreadySet
deriving DecidableEq

/-- Process-wide logger state: whether a logger is installed, and the current
maximum level. Modelled from the spec: a process-wide logger initialized once
per process lifetime, failing loudly on double-init (spec sections 6 and 9);
the concrete behaviour lives in the external log crate, whose `set_logger`
errors when a logger was already installed. -/
structure LoggerSt where
  loggerSet : Bool
  maxLevel : LevelFilter
deriving DecidableEq

/-- `log::set_logger`: errors on a second installation. -/
def logSetLogger (st : LoggerSt) : Except SetLoggerError LoggerSt :=
  if st.loggerSet then Except.error SetLoggerError.alreadySet
  else Except.ok ⟨true, st.maxLevel⟩

/-- `log::set_max_level`. -/
def logSetMaxLevel (lvl : LevelFilter) (st : LoggerSt) : LoggerSt :=
  ⟨st.loggerSet, lvl⟩

/-- `WasmLogger::init` (src/utils.rs lines 34-37): installs the static
logger. -/
def WasmLogger.init (st : LoggerSt) : Except SetLoggerError LoggerSt :=
  logSetLogger st

/-- `WasmLogger::setup` (src/utils.rs lines 38-40): sets the maximum level. -/
def WasmLogger.setup (lvl : LevelFilter) (st : LoggerSt) : LoggerSt :=
  logSetMaxLevel lvl st

/-- `verbosity_filter` (src/utils.rs lines 59-67). -/
def verbosity_filter (verbosity : Nat) : LevelFilter :=
  match verbosity with
  | 0 => LevelFilter.error
  | 1 => LevelFilter.warn
  | 2 => LevelFilter.info
  | 3 => LevelFilter.debug
  | _ => LevelFilter.trace

/-- The wasm `init` entry point (src/lib.rs lines 33-38): installs the logger
and unwraps the result (`none` models the panic of `.unwrap()` on a failed
installation), then sets the maximum level from `verbosity_filter 2`. -/
def init (st : LoggerSt) : Option LoggerSt :=
  match WasmLogger.init st with
  | Except.error _ => none
  | Except.ok st1 => some (WasmLogger.setup (verbosity_filter 2) st1)

/-- A record passed to the installed logger. -/
structure LogRecord where
  level : LevelFilter
  message : String

/-- The `log` method of `WasmLogger` (src/utils.rs lines 52-54): its body is
empty, so the list of console lines it emits is empty. -/
def WasmLogger.log (_r : LogRecord) : List String := []

/-- Console lines produced when the events of a trace are routed through the
installed `WasmLogger`. -/
def consoleOutput : List Event → List String
  | [] => []
  | Event.loggedError m :: t =>
    WasmLogger.log ⟨LevelFilter.error, m⟩ ++ consoleOutput t
  | Event.calledList _ :: t => consoleOutput t
  | Event.calledFetch _ _ :: t => consoleOutput t

/-- `report_error` (src/utils.rs lines 70-74): formats the error, logs the
text at error level, and returns the same text as the caller-facing value.
The first component is the returned value, the second the logging event. -/
def report_error (err : String) : String × Event :=
  (err, Event.loggedError err)

/-- Debug formatting of an anyhow error carrying one context layer, as
produced by `.context(...)` in src/lib.rs line 78. -/
def anyhowContext (ctx msg : String) : String :=
  ctx ++ "\n\nCaused by:\n    " ++ msg

/-- Error text built by the fetch closure on a failed JS call
(src/lib.rs lines 102-109). -/
def fetchFailText (p : Pkg) (v : SemVer) (jsErr : String) : String :=
  "An error occurred in the JS function call `fetch_elm_json(" ++ p.toStr
    ++ ", " ++ v.toStr ++ ")`.\n\n" ++ jsErr

/-- Error text built by the version-listing closure on a failed JS call
(src/lib.rs lines 122-129). -/
def listFailText (p : Pkg) (jsErr : String) : String :=
  "An error occurred in the JS function call `list_available_versions("
    ++ p.toStr ++ ")`.\n\n" ++ jsErr

/-- The `fetch_elm_json` closure (src/lib.rs lines 94-111): calls the JS
callback with the rendered package and version; on success the returned text
is decoded as a manifest, on failure the stringified JS error is wrapped in a
tagged message. -/
def fetch_elm_json (ext : ExtDecoders) (cbs : JsCallbacks) (p : Pkg) (v : SemVer) :
    Except String (List (Pkg × Constraint)) :=
  match cbs.fetchElmJson p.toStr v.toStr with
  | Except.ok strConfig => ext.decodePkgConfig strConfig
  | Except.error jsErr => Except.error (fetchFailText p v jsErr)

/-- The `list_available_versions` closure (src/lib.rs lines 113-130): calls
the JS callback with the rendered package; version strings that fail to parse
are dropped by `filter_map`, and a failed call is wrapped in a tagged
message. -/
def list_available_versions (cbs : JsCallbacks) (p : Pkg) :
    Except String (List SemVer) :=
  match cbs.listAvailableVersions p.toStr with
  | Except.ok versions => Except.ok (versions.filterMap parseSemVer)
  | Except.error jsErr => Except.error (listFailText p jsErr)

/-- The error type of the external pubgrub solver, as matched by
`handle_pubgrub_error` (src/lib.rs lines 149-189). The no-solution
derivation tree is carried already rendered. -/
inductive PubGrubError where
  | noSolution (tree : String)
  | errorRetrievingDependencies (package : Pkg) (version : SemVer)
      (source : String)
  | dependencyOnTheEmptySet (package : Pkg) (version : SemVer)
      (dependent : Pkg)
  | selfDependency (package : Pkg) (version : SemVer)
  | errorChoosingPackageVersion (err : String)
  | errorInShouldCancel (err : String)
  | failure (err : String)
deriving DecidableEq

/-- `handle_pubgrub_error` (src/lib.rs lines 149-189), keeping every message
verbatim, including the `occured` spelling of the source. -/
def handle_pubgrub_error : PubGrubError → String
  | PubGrubError.noSolution tree => tree
  | PubGrubError.errorRetrievingDependencies p v src =>
    "An error occured while trying to retrieve dependencies of " ++ p.toStr
      ++ "@" ++ v.toStr ++ ":\n\n" ++ src
  | PubGrubError.dependencyOnTheEmptySet p v dep =>
    p.toStr ++ "@" ++ v.toStr ++ " has an impossible dependency on "
      ++ dep.toStr
  | PubGrubError.selfDependency p v =>
    p.toStr ++ "@" ++ v.toStr ++ " somehow depends on itself"
  | PubGrubError.errorChoosingPackageVersion e =>
    "There was an error while picking packages for dependency resolution:\n\n"
      ++ e
  | PubGrubError.errorInShouldCancel e =>
    "Dependency resolution was cancelled.\n\n" ++ e
  | PubGrubError.failure e =>
    "An unrecoverable error happened while solving dependencies:\n\n" ++ e

/-- One resolution loop. Modelled from the spec: the solver of the external
elm-solve-deps crate (spec section 4.3), restricted to the interface
behaviours the wrapper relies on: it pulls version lists and manifests on
demand, records each provider call in its trace, never re-fetches a package
it has already chosen, and aborts on the first provider failure with the
corresponding `PubGrubError` (spec sections 4.2 and 5: provider failures are
fatal and never retried). The fuel argument bounds the search. -/
def solverLoop (fetch : Pkg → SemVer → Except String (List (Pkg × Constraint)))
    (listVers : Pkg → Except String (List SemVer)) :
    Nat → List (Pkg × Constraint) → List (Pkg × SemVer) →
    Except PubGrubError (List (Pkg × SemVer)) × List Event
  | 0, _, _ => (Except.error (PubGrubError.failure ("search limit reached")), [])
  | _ + 1, [], chosen => (Except.ok chosen.reverse, [])
  | fuel + 1, (q, c) :: rest, chosen =>
    match chosen.lookup q with
    | some w =>
      if c.allows w then solverLoop fetch listVers fuel rest chosen
      else
        (Except.error (PubGrubError.noSolution
          ("conflicting requirements on " ++ q.toStr)), [])
    | none =>
      match listVers q with
      | Except.error e =>
        (Except.error (PubGrubError.errorChoosingPackageVersion e),
         [Event.calledList q])
      | Except.ok vs =>
        match vs.find? c.allows with
        | none =>
          (Except.error (PubGrubError.noSolution
            ("no version of " ++ q.toStr ++ " satisfies the requirement")),
           [Event.calledList q])
        | some w =>
          match fetch q w with
          | Except.error e =>
            (Except.error (PubGrubError.errorRetrievingDependencies q w e),
             [Event.calledList q, Event.calledFetch q w])
          | Except.ok deps =>
            ((solverLoop fetch listVers fuel (rest ++ deps)
                ((q, w) :: chosen)).1,
             Event.calledList q :: Event.calledFetch q w ::
               (solverLoop fetch listVers fuel (rest ++ deps)
                 ((q, w) :: chosen)).2)

/-- Root requirements seeded from the manifest dependencies, the test
dependencies when requested, and the caller-injected constraints
(spec section 4.3, Root). -/
def rootRequirements (cfg : ProjectConfig) (useTest : Bool)
    (extra : List (Pkg × Constraint)) : List (Pkg × Constraint) :=
  cfg.dependencies ++ (if useTest then cfg.testDependencies else []) ++ extra

/-- Modelled from the spec: `solve_deps_with` of the external elm-solve-deps
crate (spec sections 4.2 and 4.3), as the resolution loop started on the root
requirements with a fixed search bound. -/
def solve_deps_with
    (fetch : Pkg → SemVer → Except String (List (Pkg × Constraint)))
    (listVers : Pkg → Except String (List SemVer))
    (cfg : ProjectConfig) (useTest : Bool)
    (extra : List (Pkg × Constraint)) :
    Except PubGrubError (List (Pkg × SemVer)) × List Event :=
  solverLoop fetch listVers 1000 (rootRequirements cfg useTest extra) []

/-- Parsing of the additional-constraints entries (src/lib.rs lines 84-92):
the `collect` over per-entry `Result`s stops at the first failing entry. -/
def parseAdditionalConstraints :
    List (String × String) → Except String (List (Pkg × Constraint))
  | [] => Except.ok []
  | (pkgStr, cStr) :: rest =>
    match parsePkg pkgStr with
    | Except.error e => Except.error e
    | Except.ok p =>
      match parseConstraint cStr with
      | Except.error e => Except.error e
      | Except.ok c =>
        match parseAdditionalConstraints rest with
        | Except.error e => Except.error e
        | Except.ok l => Except.ok ((p, c) :: l)

/-- One key/value pair of the solution rendering. -/
def quotedPair (pv : Pkg × SemVer) : String :=
  "\"" ++ pv.1.toStr ++ "\":\"" ++ pv.2.toStr ++ "\""

/-- Comma-joined concatenation of rendered pairs. -/
def joinComma : List String → String
  | [] => ""
  | [x] => x
  | x :: y :: t => x ++ "," ++ joinComma (y :: t)

/-- Modelled from the spec: JSON serialization of the solution by external
serde code (src/lib.rs line 140); flat key/value text mapping each package
identifier to its resolved version string (spec section 6). -/
def serializeSolution (sol : List (Pkg × SemVer)) : String :=
  "\x7b" ++ joinComma (sol.map quotedPair) ++ "\x7d"

/-- `solve_deps` (src/lib.rs lines 69-145), as a function of the external
decoders, the JS callbacks, the manifest text, the test flag and the
deserialized additional-constraints value. Returns the caller-facing result
together with the trace of logger and provider-call events. The decode error
of the manifest and every parse or solver error pass through `report_error`;
the deserialization failure of the additional-constraints value is returned
through the bare `?` operator of src/lib.rs line 83. -/
def solve_deps (ext : ExtDecoders) (cbs : JsCallbacks) (projectElmJsonStr : String)
    (useTest : Bool) (additionalConstraintsStr : JsMapping) :
    Except String String × List Event :=
  match ext.decodeProject projectElmJsonStr with
  | Except.error e =>
    (Except.error (report_error (anyhowContext ("Failed to decode the elm.json") e)).1,
     [(report_error (anyhowContext ("Failed to decode the elm.json") e)).2])
  | Except.ok projectElmJson =>
    match additionalConstraintsStr with
    | JsMapping.bad e => (Except.error e, [])
    | JsMapping.ok entries =>
      match parseAdditionalConstraints entries with
      | Except.error e =>
        (Except.error (report_error e).1, [(report_error e).2])
      | Except.ok additionalConstraints =>
        match solve_deps_with (fetch_elm_json ext cbs)
            (list_available_versions cbs) projectElmJson useTest
            additionalConstraints with
        | (Except.ok solution, tr) =>
          (Except.ok (serializeSolution solution), tr)
        | (Except.error err, tr) =>
          (Except.error (report_error (handle_pubgrub_error err)).1,
           tr ++ [(report_error (handle_pubgrub_error err)).2])

/-- A package used by the concrete evaluation scenarios. -/
def pkgCore : Pkg := ⟨"elm", "core"⟩

/-- The version 1.0.0. -/
def verOne : SemVer := ⟨1, 0, 0⟩

/-- The range 1.0.0 <= v < 2.0.0. -/
def conOneTwo : Constraint := ⟨⟨1, 0, 0⟩, ⟨2, 0, 0⟩⟩

/-- A one-dependency project manifest. -/
def cfgOne : ProjectConfig := ⟨[(pkgCore, conOneTwo)], []⟩

/-- Decoders that accept any manifest text as `cfgOne` and any dependency
manifest as dependency-free. -/
def extOk : ExtDecoders := ⟨fun _ => Except.ok cfgOne, fun _ => Except.ok []⟩

/-- Decoders whose project decoding always fails. -/
def extBadDecode : ExtDecoders :=
  ⟨fun _ => Except.error ("expected value at line 1"), fun _ => Except.ok []⟩

/-- Callbacks of a healthy provider: one listed version, fetchable. -/
def cbsOk : JsCallbacks :=
  ⟨fun _ _ => Except.ok ("dep elm json"), fun _ => Except.ok (["1.0.0"])⟩

/-- Callbacks written differently from `cbsOk` but with identical
responses. -/
def cbsOkB : JsCallbacks :=
  ⟨fun p v => cbsOk.fetchElmJson p v, fun p => cbsOk.listAvailableVersions p⟩

/-- Callbacks whose version listing succeeds with a mix of parseable and
unparsable entries. -/
def cbsMixed : JsCallbacks :=
  ⟨fun _ _ => Except.ok ("dep elm json"),
   fun _ => Except.ok (["1.0.0", "garbage", "2.0.0-beta", "3.0.0"])⟩

/-- Callbacks whose manifest fetch throws. -/
def cbsFetchFail : JsCallbacks :=
  ⟨fun _ _ => Except.error ("network down"), fun _ => Except.ok (["1.0.0"])⟩

/-- Callbacks whose version listing throws. -/
def cbsListFail : JsCallbacks :=
  ⟨fun _ _ => Except.ok ("dep elm json"),
   fun _ => Except.error ("registry down")⟩

/-- An additional-constraints map with two malformed entries. -/
def badEntries : List (String × String) :=
  [("badpkg", "1.0.0 <= v < 2.0.0"), ("second offender", "junk")]

/-- The same additional-constraints map as `badEntries`, deserialized in the
other iteration order: the HashMap of src/lib.rs 82-85 has per-instance
seeded iteration order, so one mapping may reach the wrapper as either entry
sequence. -/
def badEntriesSwapped : List (String × String) :=
  [("second offender", "junk"), ("badpkg", "1.0.0 <= v < 2.0.0")]

/-! Helper lemmas. -/

theorem strData_append (a b : String) : (a ++ b).data = a.data ++ b.data := rfl

theorem subMid (a b c : String) : b.data <:+: (a ++ b ++ c).data :=
  ⟨a.data, c.data, by simp [strData_append]⟩

theorem subEnd (a b : String) : b.data <:+: (a ++ b).data :=
  ⟨a.data, [], by simp [strData_append]⟩

theorem countFetch_append (p : Pkg) (v : SemVer) (a b : List Event) :
    countFetch p v (a ++ b) = countFetch p v a + countFetch p v b := by
  induction a with
  | nil => simp [countFetch]
  | cons ev t ih => cases ev <;> simp [countFetch, ih] <;> omega

theorem countList_append (p : Pkg) (a b : List Event) :
    countList p (a ++ b) = countList p a + countList p b := by
  induction a with
  | nil => simp [countList]
  | cons ev t ih => cases ev <;> simp [countList, ih] <;> omega


theorem solverLoop_fetch_error
    (fetch : Pkg → SemVer → Except String (List (Pkg × Constraint)))
    (listVers : Pkg → Except String (List SemVer))
    (p : Pkg) (v : SemVer) (e : String)
    (hf : fetch p v = Except.error e) :
    ∀ fuel pending chosen,
      Event.calledFetch p v ∈ (solverLoop fetch listVers fuel pending chosen).2 →
      (solverLoop fetch listVers fuel pending chosen).1
          = Except.error (PubGrubError.errorRetrievingDependencies p v e)
      ∧ countFetch p v (solverLoop fetch listVers fuel pending chosen).2 = 1 := by
  intro fuel
  induction fuel with
  | zero =>
    intro pending chosen h
    simp [solverLoop] at h
  | succ n ih =>
    intro pending chosen h
    cases pending with
    | nil => simp [solverLoop] at h
    | cons qc rest =>
      obtain ⟨q, c⟩ := qc
      cases hlk : List.lookup q chosen with
      | some w =>
        by_cases hal : c.allows w = true
        · simp only [solverLoop, hlk, hal, if_true] at h ⊢
          exact ih rest chosen h
        · simp only [solverLoop, hlk, if_neg hal] at h
          simp at h
      | none =>
        cases hlv : listVers q with
        | error e2 =>
          simp only [solverLoop, hlk, hlv] at h
          simp at h
        | ok vs =>
          cases hfind : vs.find? c.allows with
          | none =>
            simp only [solverLoop, hlk, hlv, hfind] at h
            simp at h
          | some w =>
            cases hft : fetch q w with
            | error e2 =>
              simp only [solverLoop, hlk, hlv, hfind, hft] at h ⊢
              simp only [List.mem_cons, List.not_mem_nil, or_false] at h
              rcases h with h | h
              · exact absurd h (by simp)
              · simp only [Event.calledFetch.injEq] at h
                obtain ⟨rfl, rfl⟩ := h
                rw [hf] at hft
                injection hft with he
                subst he
                exact ⟨rfl, by simp [countFetch]⟩
            | ok deps =>
              simp only [solverLoop, hlk, hlv, hfind, hft] at h ⊢
              simp only [List.mem_cons] at h
              rcases h with h | h | h
              · exact absurd h (by simp)
              · simp only [Event.calledFetch.injEq] at h
                obtain ⟨rfl, rfl⟩ := h
                rw [hf] at hft
                exact absurd hft (by simp)
              · have hrec := ih (rest ++ deps) ((q, w) :: chosen) h
                refine ⟨hrec.1, ?_⟩
                have hne : ¬(p = q ∧ v = w) := by
                  rintro ⟨rfl, rfl⟩
                  rw [hf] at hft
                  exact absurd hft (by simp)
                simp [countFetch, hne, hrec.2]

theorem solverLoop_list_error
    (fetch : Pkg → SemVer → Except String (List (Pkg × Constraint)))
    (listVers : Pkg → Except String (List SemVer))
    (p : Pkg) (e : String)
    (hl : listVers p = Except.error e) :
    ∀ fuel pending chosen,
      Event.calledList p ∈ (solverLoop fetch listVers fuel pending chosen).2 →
      (solverLoop fetch listVers fuel pending chosen).1
          = Except.error (PubGrubError.errorChoosingPackageVersion e)
      ∧ countList p (solverLoop fetch listVers fuel pending chosen).2 = 1 := by
  intro fuel
  induction fuel with
  | zero =>
    intro pending chosen h
    simp [solverLoop] at h
  | succ n ih =>
    intro pending chosen h
    cases pending with
    | nil => simp [solverLoop] at h
    | cons qc rest =>
      obtain ⟨q, c⟩ := qc
      cases hlk : List.lookup q chosen with
      | some w =>
        by_cases hal : c.allows w = true
        · simp only [solverLoop, hlk, hal, if_true] at h ⊢
          exact ih rest chosen h
        · simp only [solverLoop, hlk, if_neg hal] at h
          simp at h
      | none =>
        cases hlv : listVers q with
        | error e2 =>
          simp only [solverLoop, hlk, hlv] at h ⊢
          simp only [List.mem_singleton, Event.calledList.injEq] at h
          subst h
          rw [hl] at hlv
          injection hlv with he
          subst he
          exact ⟨rfl, by simp [countList]⟩
        | ok vs =>
          cases hfind : vs.find? c.allows with
          | none =>
            simp only [solverLoop, hlk, hlv, hfind] at h
            simp only [List.mem_singleton, Event.calledList.injEq] at h
            subst h
            rw [hl] at hlv
            exact absurd hlv (by simp)
          | some w =>
            cases hft : fetch q w with
            | error e2 =>
              simp only [solverLoop, hlk, hlv, hfind, hft] at h
              simp only [List.mem_cons, List.not_mem_nil, or_false] at h
              rcases h with h | h
              · simp only [Event.calledList.injEq] at h
                subst h
                rw [hl] at hlv
                exact absurd hlv (by simp)
              · exact absurd h (by simp)
            | ok deps =>
              simp only [solverLoop, hlk, hlv, hfind, hft] at h ⊢
              simp only [List.mem_cons] at h
              rcases h with h | h | h
              · simp only [Event.calledList.injEq] at h
                subst h
                rw [hl] at hlv
                exact absurd hlv (by simp)
              · exact absurd h (by simp)
              · have hrec := ih (rest ++ deps) ((q, w) :: chosen) h
                refine ⟨hrec.1, ?_⟩
                have hne : ¬(p = q) := by
                  rintro rfl
                  rw [hl] at hlv
                  exact absurd hlv (by simp)
                simp [countList, hne, hrec.2]

theorem parsePkg_error_text (s m : String)
    (h : parsePkg s = Except.error m) :
    m = "Invalid package identifier: " ++ s := by
  unfold parsePkg at h
  split at h
  · split at h
    · injection h with he
      exact he.symm
    · exact absurd h (by simp)
  · injection h with he
    exact he.symm

theorem parseConstraint_error_text (s m : String)
    (h : parseConstraint s = Except.error m) :
    m = "Invalid constraint: " ++ s := by
  unfold parseConstraint at h
  split at h
  · split at h
    · split at h
      · exact absurd h (by simp)
      · injection h with he
        exact he.symm
    · injection h with he
      exact he.symm
  · injection h with he
    exact he.symm

theorem parseAdditional_first_error (entries : List (String × String))
    (m : String)
    (h : parseAdditionalConstraints entries = Except.error m) :
    ∃ pre pkgStr cStr post,
      entries = pre ++ (pkgStr, cStr) :: post
      ∧ (∀ pc ∈ pre, (∃ p2, parsePkg pc.1 = Except.ok p2)
          ∧ (∃ c2, parseConstraint pc.2 = Except.ok c2))
      ∧ ((parsePkg pkgStr = Except.error m ∧ pkgStr.data <:+: m.data)
         ∨ ((∃ p2, parsePkg pkgStr = Except.ok p2)
            ∧ parseConstraint cStr = Except.error m
            ∧ cStr.data <:+: m.data)) := by
  induction entries with
  | nil => exact absurd h (by simp [parseAdditionalConstraints])
  | cons pc rest ih =>
    obtain ⟨ps, cs⟩ := pc
    cases hp : parsePkg ps with
    | error e =>
      simp only [parseAdditionalConstraints, hp] at h
      injection h with he
      rw [he] at hp
      refine ⟨[], ps, cs, rest, by simp, by simp, Or.inl ⟨hp, ?_⟩⟩
      rw [parsePkg_error_text ps m hp]
      exact subEnd ("Invalid package identifier: ") ps
    | ok p =>
      cases hc : parseConstraint cs with
      | error e =>
        simp only [parseAdditionalConstraints, hp, hc] at h
        injection h with he
        rw [he] at hc
        refine ⟨[], ps, cs, rest, by simp, by simp,
          Or.inr ⟨⟨p, hp⟩, hc, ?_⟩⟩
        rw [parseConstraint_error_text cs m hc]
        exact subEnd ("Invalid constraint: ") cs
      | ok c =>
        cases hr : parseAdditionalConstraints rest with
        | error e =>
          simp only [parseAdditionalConstraints, hp, hc, hr] at h
          injection h with he
          subst he
          obtain ⟨pre, pkgStr, cStr, post, h1, h2, h3⟩ := ih hr
          refine ⟨(ps, cs) :: pre, pkgStr, cStr, post, by simp [h1], ?_, h3⟩
          intro pc2 hm
          rcases List.mem_cons.mp hm with hm | hm
          · subst hm
            exact ⟨⟨p, hp⟩, ⟨c, hc⟩⟩
          · exact h2 pc2 hm
        | ok l =>
          simp only [parseAdditionalConstraints, hp, hc, hr] at h
          exact absurd h (by simp)

theorem joinComma_mem (l : List String) (x : String) (h : x ∈ l) :
    x.data <:+: (joinComma l).data := by
  induction l with
  | nil => exact absurd h (by simp)
  | cons y t ih =>
    cases t with
    | nil =>
      rw [List.mem_singleton] at h
      subst h
      exact List.infix_rfl
    | cons z t2 =>
      rcases List.mem_cons.mp h with h | h
      · subst h
        exact ⟨[], ("," ++ joinComma (z :: t2)).data,
          by simp [joinComma, strData_append]⟩
      · exact (ih h).trans ⟨(y ++ ",").data, [],
          by simp [joinComma, strData_append]⟩

/-! Claim theorems. -/

/-- C1: for every package, when the provider's list_available_versions
callback succeeds but some returned version strings fail to parse as semantic
versions, those entries are silently dropped from the resulting version
sequence (the result is exactly the in-order `filterMap` of the parser over
the returned strings, and every parseable entry is kept); no error is raised
for the malformed entries. -/
theorem c1_unparsable_version_entries_dropped
    (cbs : JsCallbacks) (p : Pkg) (strs : List String)
    (h : cbs.listAvailableVersions p.toStr = Except.ok strs) :
    list_available_versions cbs p = Except.ok (strs.filterMap parseSemVer)
    ∧ ∀ s v, s ∈ strs → parseSemVer s = some v →
        v ∈ strs.filterMap parseSemVer := by
  constructor
  · simp [list_available_versions, h]
  · intro s v hs hv
    exact List.mem_filterMap.mpr ⟨s, hs, hv⟩

/-- C1 witness: a concrete version list with two unparsable entries yields
the two parseable versions, in order, with no error. -/
theorem c1_witness :
    list_available_versions cbsMixed pkgCore
        = Except.ok ((["1.0.0", "garbage", "2.0.0-beta", "3.0.0"]).filterMap parseSemVer)
    ∧ (["1.0.0", "garbage", "2.0.0-beta", "3.0.0"]).filterMap parseSemVer
        = [⟨1, 0, 0⟩, ⟨3, 0, 0⟩] := by
  refine ⟨(c1_unparsable_version_entries_dropped cbsMixed pkgCore
    (["1.0.0", "garbage", "2.0.0-beta", "3.0.0"]) rfl).1, ?_⟩
  decide

/-- C2 counterexample: a failure to deserialize the additional-constraints
mapping (src/lib.rs line 83) is returned to the caller through the bare `?`
operator with no logging event at all, refuting the claim that no error
returned by solve_deps bypasses logging. -/
theorem c2_counterexample :
    (solve_deps extOk cbsOk ("x") false (JsMapping.bad ("invalid type"))).1
        = Except.error ("invalid type")
    ∧ (solve_deps extOk cbsOk ("x") false (JsMapping.bad ("invalid type"))).2
        = [] :=
  ⟨rfl, rfl⟩

/-- C2 (amended): every error that terminates solve_deps is logged, with the
same text that is returned to the caller, at the point of occurrence — except
a failure to deserialize the additional-constraints mapping itself, which is
returned to the caller without logging. -/
theorem c2_amended_errors_logged
    (ext : ExtDecoders) (cbs : JsCallbacks) (s : String) (u : Bool)
    (entries : List (String × String)) (msg : String)
    (h : (solve_deps ext cbs s u (JsMapping.ok entries)).1
        = Except.error msg) :
    Event.loggedError msg ∈ (solve_deps ext cbs s u (JsMapping.ok entries)).2 := by
  cases hdec : ext.decodeProject s with
  | error e =>
    simp only [solve_deps, hdec, report_error] at h ⊢
    injection h with he
    rw [← he]
    simp
  | ok cfg =>
    cases hpc : parseAdditionalConstraints entries with
    | error e =>
      simp only [solve_deps, hdec, hpc, report_error] at h ⊢
      injection h with he
      rw [← he]
      simp
    | ok extra =>
      rcases hsw : solve_deps_with (fetch_elm_json ext cbs)
          (list_available_versions cbs) cfg u extra with ⟨res, tr⟩
      cases res with
      | ok sol =>
        simp only [solve_deps, hdec, hpc, hsw] at h
        exact absurd h (by simp)
      | error err =>
        simp only [solve_deps, hdec, hpc, hsw, report_error] at h ⊢
        injection h with he
        rw [← he]
        simp

/-- C2 witness: a manifest-decode failure is both returned and logged with
the same text. -/
theorem c2_witness :
    Event.loggedError (anyhowContext ("Failed to decode the elm.json")
        ("expected value at line 1"))
      ∈ (solve_deps extBadDecode cbsOk ("not json") false (JsMapping.ok [])).2 :=
  c2_amended_errors_logged extBadDecode cbsOk ("not json") false [] _ rfl

/-- C3 counterexample: `badEntries` and `badEntriesSwapped` are permutations
of each other, hence the same additional-constraints mapping (the HashMap of
src/lib.rs 82-85 fixes no entry order), yet with identical manifest string,
test flag, decoders and callbacks the two invocations return different error
reports — one names each malformed entry — refuting the claim that an
identical mapping yields the identical failure report. -/
theorem c3_counterexample :
    badEntries.Perm badEntriesSwapped
    ∧ (solve_deps extOk cbsOk ("x") false (JsMapping.ok badEntries)).1
        = Except.error ("Invalid package identifier: badpkg")
    ∧ (solve_deps extOk cbsOk ("x") false (JsMapping.ok badEntriesSwapped)).1
        = Except.error ("Invalid package identifier: second offender")
    ∧ (solve_deps extOk cbsOk ("x") false (JsMapping.ok badEntries)).1
        ≠ (solve_deps extOk cbsOk ("x") false (JsMapping.ok badEntriesSwapped)).1 := by
  refine ⟨by decide, rfl, rfl, ?_⟩
  have e1 : (solve_deps extOk cbsOk ("x") false (JsMapping.ok badEntries)).1
      = Except.error ("Invalid package identifier: badpkg") := rfl
  have e2 : (solve_deps extOk cbsOk ("x") false
      (JsMapping.ok badEntriesSwapped)).1
      = Except.error ("Invalid package identifier: second offender") := rfl
  rw [e1, e2]
  intro h
  injection h with he
  exact absurd he (by decide)

/-- C3 (amended): two invocations of solve_deps with identical manifest
string, identical test flag, additional-constraints mappings deserialized to
the identical entry sequence, identical decoders, and provider callbacks
returning identical responses produce identical results: the same result
value and the same event trace. -/
theorem c3_deterministic
    (ext : ExtDecoders) (cbs1 cbs2 : JsCallbacks) (s : String) (u : Bool)
    (acs : JsMapping)
    (hf : ∀ p v, cbs1.fetchElmJson p v = cbs2.fetchElmJson p v)
    (hl : ∀ p, cbs1.listAvailableVersions p = cbs2.listAvailableVersions p) :
    solve_deps ext cbs1 s u acs = solve_deps ext cbs2 s u acs := by
  have h1 : cbs1.fetchElmJson = cbs2.fetchElmJson :=
    funext fun p => funext fun v => hf p v
  have h2 : cbs1.listAvailableVersions = cbs2.listAvailableVersions :=
    funext fun p => hl p
  obtain ⟨f1, l1⟩ := cbs1
  obtain ⟨f2, l2⟩ := cbs2
  have h1b : f1 = f2 := h1
  have h2b : l1 = l2 := h2
  subst h1b
  subst h2b
  rfl

/-- C3 witness: two syntactically different callback records with pointwise
equal responses give equal solve_deps outcomes. -/
theorem c3_witness :
    solve_deps extOk cbsOk ("x") false (JsMapping.ok [])
      = solve_deps extOk cbsOkB ("x") false (JsMapping.ok []) :=
  c3_deterministic extOk cbsOk cbsOkB ("x") false (JsMapping.ok [])
    (fun _ _ => rfl) (fun _ => rfl)

theorem listMsg_ne_fetchMsg (p : Pkg) (e : String) (p2 : Pkg) (v2 : SemVer)
    (src : String) :
    handle_pubgrub_error (PubGrubError.errorChoosingPackageVersion
        (listFailText p e))
      ≠ handle_pubgrub_error (PubGrubError.errorRetrievingDependencies
        p2 v2 src) := by
  intro h
  have hT : (handle_pubgrub_error (PubGrubError.errorChoosingPackageVersion
      (listFailText p e))).data.head? = some ('T') := rfl
  have hA : (handle_pubgrub_error (PubGrubError.errorRetrievingDependencies
      p2 v2 src)).data.head? = some ('A') := rfl
  rw [h, hA] at hT
  exact absurd (Option.some.inj hT) (by decide)

/-- C4: whenever the provider's fetch_elm_json callback fails for a package
and version that the solve actually fetches, the solve aborts with a fatal
error whose text contains the package identifier, the version, and the
provider's underlying error text; the error is logged, and the failing fetch
is attempted exactly once (no continuation or retry). -/
theorem c4_fetch_failure_fatal
    (ext : ExtDecoders) (cbs : JsCallbacks) (s : String) (u : Bool)
    (acs : JsMapping) (p : Pkg) (v : SemVer) (e : String)
    (hf : cbs.fetchElmJson p.toStr v.toStr = Except.error e)
    (hcall : Event.calledFetch p v ∈ (solve_deps ext cbs s u acs).2) :
    ∃ msg, (solve_deps ext cbs s u acs).1 = Except.error msg
      ∧ p.toStr.data <:+: msg.data
      ∧ v.toStr.data <:+: msg.data
      ∧ e.data <:+: msg.data
      ∧ Event.loggedError msg ∈ (solve_deps ext cbs s u acs).2
      ∧ countFetch p v (solve_deps ext cbs s u acs).2 = 1 := by
  cases hdec : ext.decodeProject s with
  | error e0 =>
    simp only [solve_deps, hdec, report_error] at hcall
    simp at hcall
  | ok cfg =>
    cases acs with
    | bad e0 =>
      simp only [solve_deps, hdec] at hcall
      simp at hcall
    | ok entries =>
      cases hpc : parseAdditionalConstraints entries with
      | error e0 =>
        simp only [solve_deps, hdec, hpc, report_error] at hcall
        simp at hcall
      | ok extra =>
        have hfe : fetch_elm_json ext cbs p v
            = Except.error (fetchFailText p v e) := by
          simp [fetch_elm_json, hf]
        rcases hsw : solve_deps_with (fetch_elm_json ext cbs)
            (list_available_versions cbs) cfg u extra with ⟨res, tr⟩
        have hsl : solverLoop (fetch_elm_json ext cbs)
            (list_available_versions cbs) 1000
            (rootRequirements cfg u extra) [] = (res, tr) := hsw
        cases res with
        | ok sol =>
          simp only [solve_deps, hdec, hpc, hsw] at hcall
          have hres := (solverLoop_fetch_error (fetch_elm_json ext cbs)
            (list_available_versions cbs) p v (fetchFailText p v e) hfe
            1000 (rootRequirements cfg u extra) []
            (by rw [hsl]; exact hcall)).1
          rw [hsl] at hres
          exact absurd hres (by simp)
        | error err =>
          simp only [solve_deps, hdec, hpc, hsw, report_error] at hcall ⊢
          have hcall2 : Event.calledFetch p v ∈ tr := by
            rcases List.mem_append.mp hcall with hh | hh
            · exact hh
            · exact absurd hh (by simp)
          have hres := solverLoop_fetch_error (fetch_elm_json ext cbs)
            (list_available_versions cbs) p v (fetchFailText p v e) hfe
            1000 (rootRequirements cfg u extra) []
            (by rw [hsl]; exact hcall2)
          have herr : err = PubGrubError.errorRetrievingDependencies p v
              (fetchFailText p v e) := by
            have h1 := hres.1
            rw [hsl] at h1
            simp at h1
            exact h1
          subst herr
          have hcnt : countFetch p v tr = 1 := by
            have h2 := hres.2
            rw [hsl] at h2
            exact h2
          refine ⟨handle_pubgrub_error (PubGrubError.errorRetrievingDependencies
            p v (fetchFailText p v e)), rfl, ?_, ?_, ?_, by simp, ?_⟩
          · exact ⟨("An error occured while trying to retrieve dependencies of ").data,
              (("@" : String) ++ v.toStr ++ ":\n\n" ++ fetchFailText p v e).data,
              by simp [handle_pubgrub_error, strData_append]⟩
          · exact ⟨(("An error occured while trying to retrieve dependencies of " : String)
                ++ p.toStr ++ "@").data,
              ((":\n\n" : String) ++ fetchFailText p v e).data,
              by simp [handle_pubgrub_error, strData_append]⟩
          · exact ⟨(("An error occured while trying to retrieve dependencies of " : String)
                ++ p.toStr ++ "@" ++ v.toStr ++ ":\n\n"
                ++ "An error occurred in the JS function call `fetch_elm_json("
                ++ p.toStr ++ ", " ++ v.toStr ++ ")`.\n\n").data, [],
              by simp [handle_pubgrub_error, fetchFailText, strData_append]⟩
          · rw [countFetch_append, hcnt]
            simp [countFetch]

/-- C4 witness: a concrete run whose manifest fetch throws aborts with the
tagged error. -/
theorem c4_witness :
    ∃ msg, (solve_deps extOk cbsFetchFail ("x") false (JsMapping.ok [])).1
        = Except.error msg
      ∧ pkgCore.toStr.data <:+: msg.data
      ∧ verOne.toStr.data <:+: msg.data
      ∧ ("network down").data <:+: msg.data
      ∧ Event.loggedError msg
          ∈ (solve_deps extOk cbsFetchFail ("x") false (JsMapping.ok [])).2
      ∧ countFetch pkgCore verOne
          (solve_deps extOk cbsFetchFail ("x") false (JsMapping.ok [])).2 = 1 :=
  c4_fetch_failure_fatal extOk cbsFetchFail ("x") false (JsMapping.ok [])
    pkgCore verOne ("network down") rfl (by decide)

/-- C5: whenever the provider's list_available_versions callback itself fails
for a package the solve actually queries, the solve aborts with a fatal error
whose text contains the package identifier and the underlying error text; the
message is a template of the package and error text only (it carries no
version) and is distinct from every manifest-fetch failure message; the
failing listing is attempted exactly once. -/
theorem c5_list_failure_fatal
    (ext : ExtDecoders) (cbs : JsCallbacks) (s : String) (u : Bool)
    (acs : JsMapping) (p : Pkg) (e : String)
    (hl : cbs.listAvailableVersions p.toStr = Except.error e)
    (hcall : Event.calledList p ∈ (solve_deps ext cbs s u acs).2) :
    ∃ msg, (solve_deps ext cbs s u acs).1 = Except.error msg
      ∧ msg = "There was an error while picking packages for dependency resolution:\n\n"
          ++ listFailText p e
      ∧ p.toStr.data <:+: msg.data
      ∧ e.data <:+: msg.data
      ∧ (∀ p2 v2 src, msg ≠ handle_pubgrub_error
          (PubGrubError.errorRetrievingDependencies p2 v2 src))
      ∧ Event.loggedError msg ∈ (solve_deps ext cbs s u acs).2
      ∧ countList p (solve_deps ext cbs s u acs).2 = 1 := by
  cases hdec : ext.decodeProject s with
  | error e0 =>
    simp only [solve_deps, hdec, report_error] at hcall
    simp at hcall
  | ok cfg =>
    cases acs with
    | bad e0 =>
      simp only [solve_deps, hdec] at hcall
      simp at hcall
    | ok entries =>
      cases hpc : parseAdditionalConstraints entries with
      | error e0 =>
        simp only [solve_deps, hdec, hpc, report_error] at hcall
        simp at hcall
      | ok extra =>
        have hle : list_available_versions cbs p
            = Except.error (listFailText p e) := by
          simp [list_available_versions, hl]
        rcases hsw : solve_deps_with (fetch_elm_json ext cbs)
            (list_available_versions cbs) cfg u extra with ⟨res, tr⟩
        have hsl : solverLoop (fetch_elm_json ext cbs)
            (list_available_versions cbs) 1000
            (rootRequirements cfg u extra) [] = (res, tr) := hsw
        cases res with
        | ok sol =>
          simp only [solve_deps, hdec, hpc, hsw] at hcall
          have hres := (solverLoop_list_error (fetch_elm_json ext cbs)
            (list_available_versions cbs) p (listFailText p e) hle
            1000 (rootRequirements cfg u extra) []
            (by rw [hsl]; exact hcall)).1
          rw [hsl] at hres
          exact absurd hres (by simp)
        | error err =>
          simp only [solve_deps, hdec, hpc, hsw, report_error] at hcall ⊢
          have hcall2 : Event.calledList p ∈ tr := by
            rcases List.mem_append.mp hcall with hh | hh
            · exact hh
            · exact absurd hh (by simp)
          have hres := solverLoop_list_error (fetch_elm_json ext cbs)
            (list_available_versions cbs) p (listFailText p e) hle
            1000 (rootRequirements cfg u extra) []
            (by rw [hsl]; exact hcall2)
          have herr : err = PubGrubError.errorChoosingPackageVersion
              (listFailText p e) := by
            have h1 := hres.1
            rw [hsl] at h1
            simp at h1
            exact h1
          subst herr
          have hcnt : countList p tr = 1 := by
            have h2 := hres.2
            rw [hsl] at h2
            exact h2
          refine ⟨handle_pubgrub_error (PubGrubError.errorChoosingPackageVersion
            (listFailText p e)), rfl, rfl, ?_, ?_,
            fun p2 v2 src => listMsg_ne_fetchMsg p e p2 v2 src, by simp, ?_⟩
          · exact ⟨(("There was an error while picking packages for dependency resolution:\n\n" : String)
                ++ "An error occurred in the JS function call `list_available_versions(").data,
              ((")`.\n\n" : String) ++ e).data,
              by simp [handle_pubgrub_error, listFailText, strData_append]⟩
          · exact ⟨(("There was an error while picking packages for dependency resolution:\n\n" : String)
                ++ "An error occurred in the JS function call `list_available_versions("
                ++ p.toStr ++ ")`.\n\n").data, [],
              by simp [handle_pubgrub_error, listFailText, strData_append]⟩
          · rw [countList_append, hcnt]
            simp [countList]

/-- C5 witness: a concrete run whose version listing throws aborts with the
package-tagged, version-free error. -/
theorem c5_witness :
    ∃ msg, (solve_deps extOk cbsListFail ("x") false (JsMapping.ok [])).1
        = Except.error msg
      ∧ msg = "There was an error while picking packages for dependency resolution:\n\n"
          ++ listFailText pkgCore ("registry down")
      ∧ pkgCore.toStr.data <:+: msg.data
      ∧ ("registry down").data <:+: msg.data
      ∧ (∀ p2 v2 src, msg ≠ handle_pubgrub_error
          (PubGrubError.errorRetrievingDependencies p2 v2 src))
      ∧ Event.loggedError msg
          ∈ (solve_deps extOk cbsListFail ("x") false (JsMapping.ok [])).2
      ∧ countList pkgCore
          (solve_deps extOk cbsListFail ("x") false (JsMapping.ok [])).2 = 1 :=
  c5_list_failure_fatal extOk cbsListFail ("x") false (JsMapping.ok [])
    pkgCore ("registry down") rfl (by decide)

/-- C6: for every call to solve_deps whose project manifest string fails to
decode, the call returns the decode failure before any solving begins: the
result is the error, the whole trace is the single logging event, and in
particular neither provider callback is ever invoked. -/
theorem c6_decode_failure_before_solving
    (ext : ExtDecoders) (cbs : JsCallbacks) (s : String) (u : Bool)
    (acs : JsMapping) (e : String)
    (hdec : ext.decodeProject s = Except.error e) :
    ∃ msg, solve_deps ext cbs s u acs
        = (Except.error msg, [Event.loggedError msg])
      ∧ e.data <:+: msg.data
      ∧ ∀ ev ∈ (solve_deps ext cbs s u acs).2, Event.isCall ev = false := by
  refine ⟨anyhowContext ("Failed to decode the elm.json") e, ?_, ?_, ?_⟩
  · simp [solve_deps, hdec, report_error]
  · exact ⟨(("Failed to decode the elm.json" : String)
        ++ "\n\nCaused by:\n    ").data, [],
      by simp [anyhowContext, strData_append]⟩
  · intro ev hev
    simp only [solve_deps, hdec, report_error] at hev
    simp at hev
    subst hev
    rfl

/-- C6 witness: a concrete failing decode returns the error with only the
logging event in the trace. -/
theorem c6_witness :
    ∃ msg, solve_deps extBadDecode cbsOk ("not json") false (JsMapping.ok [])
        = (Except.error msg, [Event.loggedError msg])
      ∧ ("expected value at line 1").data <:+: msg.data
      ∧ ∀ ev ∈ (solve_deps extBadDecode cbsOk ("not json") false
          (JsMapping.ok [])).2, Event.isCall ev = false :=
  c6_decode_failure_before_solving extBadDecode cbsOk ("not json") false
    (JsMapping.ok []) ("expected value at line 1") rfl

/-- C7 counterexample: with two malformed additional-constraints entries, the
second entry also fails to parse, yet the returned error and the only logged
message report the first entry alone: the second entry's offending text
appears nowhere, refuting the claim that each parse failure is reported
per-entry. -/
theorem c7_counterexample :
    parsePkg ("second offender")
        = Except.error ("Invalid package identifier: second offender")
    ∧ (solve_deps extOk cbsOk ("x") false (JsMapping.ok badEntries)).1
        = Except.error ("Invalid package identifier: badpkg")
    ∧ (solve_deps extOk cbsOk ("x") false (JsMapping.ok badEntries)).2
        = [Event.loggedError ("Invalid package identifier: badpkg")]
    ∧ ¬ (("second offender").data
        <:+: ("Invalid package identifier: badpkg").data) :=
  ⟨rfl, rfl, rfl, by decide⟩

/-- C7 (amended): for every additional-constraints mapping containing an
entry whose key or value fails to parse, solve_deps fails fatally before
solving (the trace holds no provider call, only the logging of the returned
message), and the reported message is the first failing entry's parse error,
carrying that entry's offending package or constraint text; later failing
entries are not separately reported. -/
theorem c7_first_failure_reported
    (ext : ExtDecoders) (cbs : JsCallbacks) (s : String) (u : Bool)
    (entries : List (String × String)) (cfg : ProjectConfig) (msg : String)
    (hdec : ext.decodeProject s = Except.ok cfg)
    (hpc : parseAdditionalConstraints entries = Except.error msg) :
    solve_deps ext cbs s u (JsMapping.ok entries)
        = (Except.error msg, [Event.loggedError msg])
    ∧ ∃ pre pkgStr cStr post,
        entries = pre ++ (pkgStr, cStr) :: post
        ∧ (∀ pc ∈ pre, (∃ p2, parsePkg pc.1 = Except.ok p2)
            ∧ (∃ c2, parseConstraint pc.2 = Except.ok c2))
        ∧ ((parsePkg pkgStr = Except.error msg ∧ pkgStr.data <:+: msg.data)
           ∨ ((∃ p2, parsePkg pkgStr = Except.ok p2)
              ∧ parseConstraint cStr = Except.error msg
              ∧ cStr.data <:+: msg.data)) := by
  constructor
  · simp [solve_deps, hdec, hpc, report_error]
  · exact parseAdditional_first_error entries msg hpc

/-- C7 witness: on the two-bad-entries mapping, the first entry's error is
returned and logged before solving. -/
theorem c7_witness :
    solve_deps extOk cbsOk ("x") false (JsMapping.ok badEntries)
        = (Except.error ("Invalid package identifier: badpkg"),
           [Event.loggedError ("Invalid package identifier: badpkg")])
    ∧ ∃ pre pkgStr cStr post,
        badEntries = pre ++ (pkgStr, cStr) :: post
        ∧ (∀ pc ∈ pre, (∃ p2, parsePkg pc.1 = Except.ok p2)
            ∧ (∃ c2, parseConstraint pc.2 = Except.ok c2))
        ∧ ((parsePkg pkgStr
              = Except.error ("Invalid package identifier: badpkg")
            ∧ pkgStr.data <:+: ("Invalid package identifier: badpkg").data)
           ∨ ((∃ p2, parsePkg pkgStr = Except.ok p2)
              ∧ parseConstraint cStr
                  = Except.error ("Invalid package identifier: badpkg")
              ∧ cStr.data <:+: ("Invalid package identifier: badpkg").data)) :=
  c7_first_failure_reported extOk cbsOk ("x") false badEntries cfgOne
    ("Invalid package identifier: badpkg") rfl rfl

/-- C8: for every successful solve, solve_deps returns exactly the
serialization of the solution mapping as flat key/value text — nothing else —
and every package/version pair of the solution appears in that text as a
quoted key/value pair. -/
theorem c8_solution_serialized_mapping
    (ext : ExtDecoders) (cbs : JsCallbacks) (s : String) (u : Bool)
    (entries : List (String × String)) (cfg : ProjectConfig)
    (extra : List (Pkg × Constraint)) (sol : List (Pkg × SemVer))
    (tr : List Event)
    (hdec : ext.decodeProject s = Except.ok cfg)
    (hpc : parseAdditionalConstraints entries = Except.ok extra)
    (hsw : solve_deps_with (fetch_elm_json ext cbs)
        (list_available_versions cbs) cfg u extra = (Except.ok sol, tr)) :
    (solve_deps ext cbs s u (JsMapping.ok entries)).1
        = Except.ok (serializeSolution sol)
    ∧ ∀ pv ∈ sol, (quotedPair pv).data <:+: (serializeSolution sol).data := by
  constructor
  · simp [solve_deps, hdec, hpc, hsw]
  · intro pv hpv
    have h1 : (quotedPair pv).data <:+: (joinComma (sol.map quotedPair)).data :=
      joinComma_mem (sol.map quotedPair) (quotedPair pv)
        (List.mem_map_of_mem quotedPair hpv)
    exact h1.trans ⟨("\x7b").data, ("\x7d").data,
      by simp [serializeSolution, strData_append]⟩

/-- C8 witness: a concrete successful solve returns the serialized
one-package mapping. -/
theorem c8_witness :
    (solve_deps extOk cbsOk ("x") false (JsMapping.ok [])).1
        = Except.ok (serializeSolution ([(pkgCore, verOne)]))
    ∧ ∀ pv ∈ ([(pkgCore, verOne)] : List (Pkg × SemVer)),
        (quotedPair pv).data <:+: (serializeSolution ([(pkgCore, verOne)])).data :=
  c8_solution_serialized_mapping extOk cbsOk ("x") false [] cfgOne []
    ([(pkgCore, verOne)])
    ([Event.calledList pkgCore, Event.calledFetch pkgCore verOne])
    rfl rfl rfl

/-- C9: the diagnostics logger is initialized at most once per process: on a
fresh state the first call to init succeeds, installs the logger and sets the
maximum level to Info, and a second call to init panics (models `.unwrap()`
on the `SetLoggerError`) rather than being silently ignored. -/
theorem c9_logger_init_once (st : LoggerSt) (h : st.loggerSet = false) :
    ∃ st2, init st = some st2
      ∧ st2.loggerSet = true
      ∧ st2.maxLevel = LevelFilter.info
      ∧ init st2 = none := by
  refine ⟨⟨true, LevelFilter.info⟩, ?_, rfl, rfl, rfl⟩
  simp [init, WasmLogger.init, logSetLogger, h, WasmLogger.setup,
    logSetMaxLevel, verbosity_filter]

/-- C9 witness: the fresh logger state. -/
theorem c9_witness :
    ∃ st2, init (⟨false, LevelFilter.off⟩ : LoggerSt) = some st2
      ∧ st2.loggerSet = true
      ∧ st2.maxLevel = LevelFilter.info
      ∧ init st2 = none :=
  c9_logger_init_once ⟨false, LevelFilter.off⟩ rfl

/-- C10: for every log record the installed WasmLogger's log method emits no
console line, so every diagnostic routed through the logger — in particular
every error message logged during a solve — is discarded. -/
theorem c10_logger_discards_all_records (r : LogRecord) (tr : List Event) :
    WasmLogger.log r = [] ∧ consoleOutput tr = [] := by
  refine ⟨rfl, ?_⟩
  induction tr with
  | nil => rfl
  | cons ev t ih => cases ev <;> simpa [consoleOutput, WasmLogger.log] using ih
